import Mathlib

/-!
# JHaptic: device session and workspace mapping of the NPAPI plugin

A shallow embedding of `NPAPI-Plugin/hapticAPI.cpp` / `hapticAPI.h`.

* The object state is the record `hapticAPI`; every member function becomes a
  function returning an `Outcome`: the returned `FB::variant`, the new object
  state, and the calls made to the Phantom driver and to the Win32 pointer
  interface, in program order.
* The driver is a record of response functions (`Driver`).
* The C type `double` is a type parameter `D`; its arithmetic is a record `DoubleOps D`.
  Two instances are given: `ieee`, IEEE 754 binary64 with round-to-nearest-even, and
  `exactOps`, exact rational arithmetic.
* The C library functions `atof` and the stream insertion of a `double` are
  parameters (`atof`, `fmt`) of the functions that use them.
* Undefined behaviour (a store outside a `double[3]`, a `double` to `int` conversion
  whose value does not fit) is modelled by `none`.
-/

namespace JHaptic

variable {D : Type}

/-! ## Values -/

/-- The operations on C `double` the plugin uses. -/
structure DoubleOps (D : Type) where
  /-- The value of a decimal literal, or of an `int` converted to `double`. -/
  ofRat : ℚ → D
  /-- Unary minus. -/
  neg : D → D
  add : D → D → D
  sub : D → D → D
  mul : D → D → D
  div : D → D → D
  /-- The comparison `a < b`. -/
  lt : D → D → Bool
  /-- Conversion to 32-bit `int`: truncation toward zero, `none` where C++ leaves the
  conversion undefined. -/
  toInt : D → Option Int

/-- A C array `double[3]`. -/
abbrev Vec3 (D : Type) := D × D × D

/-- The part of `FB::variant` the plugin returns: a boolean, a string or a double. -/
inductive Variant (D : Type)
  | bool (b : Bool)
  | str (s : String)
  | dbl (d : D)
  deriving DecidableEq

/-- Calls that leave the plugin: Phantom driver entry points and Win32 pointer functions. -/
inductive Call (D : Type)
  | hdPhantomGetNumDevices
  | hdPhantomOpen (id : Int)
  | hdPhantomStartServo
  | hdPhantomClose (id : Int)
  | hdPhantomStopServo
  | hdPhantomSetForce (id : Int) (z x y : D)
  | hdPhantomGetPosition (id : Int)
  | hdPhantomGetButtons (id : Int)
  | SetCursorPos (x y : Int)
  | SendInput
  deriving DecidableEq

/-- Responses of the Phantom driver (`hdPhantom.h`), one function per entry point. -/
structure Driver (D : Type) where
  hdPhantomGetNumDevices : Int
  hdPhantomOpen : Int → Int
  hdPhantomClose : Int → Int
  hdPhantomSetForce : Int → D → D → D → Int
  hdPhantomGetPosition : Int → Vec3 D
  hdPhantomGetButtons : Int → Int

/-- Data members of `class hapticAPI` (hapticAPI.h, "Internal properties"). -/
structure hapticAPI (D : Type) where
  deviceID : Int
  position : Vec3 D
  initialized : Bool
  InitializedString : String
  NotInitializedString : String
  ConnectionString : String
  DisconnectionString : String
  res : Int × Int
  workspaceSize : Vec3 D
  pixelWidth : D
  offsetX : D
  offsetY : D
  context : String
  deriving DecidableEq

/-- Result of a member function: returned value, object state afterwards, external calls made. -/
structure Outcome (D : Type) where
  ret : Variant D
  st : hapticAPI D
  calls : List (Call D)
  deriving DecidableEq

/-! ## C strings -/

/-- The characters `std::string::c_str()` exposes to a C function: those before the first NUL. -/
def c_str (s : String) : List Char :=
  s.toList.takeWhile (fun c => c ≠ Char.ofNat 0)

/-- C `strcmp` on NUL-free character lists: negative, zero or positive. -/
def strcmp : List Char → List Char → Int
  | [], [] => 0
  | [], _ :: _ => -1
  | _ :: _, [] => 1
  | a :: as, b :: bs => if a = b then strcmp as bs else if a.toNat < b.toNat then -1 else 1

/-- One call of C `strtok` on the not yet consumed characters `s`: skip leading delimiters;
if nothing is left return `none` (NULL); otherwise return the token up to the next
delimiter and the characters after that delimiter. -/
def strtok (delim : List Char) (s : List Char) : Option (List Char × List Char) :=
  match s.dropWhile (fun c => delim.contains c) with
  | [] => none
  | c :: cs =>
    some (c :: cs.takeWhile (fun d => !delim.contains d),
          (cs.dropWhile (fun d => !delim.contains d)).drop 1)

/-- The `while (num != NULL)` loop of `stringToArray`, entered with token `num` and loop
counter `i`: the stores `val[i] = atof(num)` it executes, in order. -/
def stringToArrayLoop (atof : List Char → D) (num rest : List Char) (i : Nat) :
    List (Nat × D) :=
  (i, atof num) ::
    match h : strtok [','] rest with
    | none => []
    | some (num2, rest2) => stringToArrayLoop atof num2 rest2 (i + 1)
termination_by rest.length
decreasing_by
  unfold strtok at h
  split at h
  · simp at h
  · next c cs hs =>
    simp only [Option.some.injEq, Prod.mk.injEq] at h
    have h1 : (c :: cs).length ≤ rest.length := by
      rw [← hs]; exact (List.dropWhile_sublist _).length_le
    have h2 := (List.dropWhile_sublist (fun d => !(List.contains [','] d)) (l := cs)).length_le
    rw [← h.2, List.length_drop]
    simp only [List.length_cons] at h1
    omega

/-- The stores `val[i] = v` executed by `hapticAPI::stringToArray(str, val)`, in order. -/
def stringToArrayStores (atof : List Char → D) (str : String) : List (Nat × D) :=
  match strtok [','] (c_str str) with
  | none => []
  | some (num, rest) => stringToArrayLoop atof num rest 0

/-- The store `val[i] = v` into a `double[3]`; `none` when `i` is outside the array. -/
def Vec3.store (val : Vec3 D) (i : Nat) (v : D) : Option (Vec3 D) :=
  match i with
  | 0 => some (v, val.2.1, val.2.2)
  | 1 => some (val.1, v, val.2.2)
  | 2 => some (val.1, val.2.1, v)
  | _ => none

/-- Execute a sequence of stores on a `double[3]`. -/
def Vec3.storeAll (val : Vec3 D) : List (Nat × D) → Option (Vec3 D)
  | [] => some val
  | (i, v) :: ws =>
    match Vec3.store val i v with
    | none => none
    | some val2 => Vec3.storeAll val2 ws

/-- The function `hapticAPI::stringToArray` run on a caller's `double[3]`. -/
def stringToArray (atof : List Char → D) (str : String) (val : Vec3 D) : Option (Vec3 D) :=
  Vec3.storeAll val (stringToArrayStores atof str)

/-- The function `hapticAPI::arrayToString`: `val[0]`, `val[1]`, `val[2]` joined by commas. -/
def arrayToString (fmt : D → String) (val : Vec3 D) : String :=
  fmt val.1 ++ "," ++ fmt val.2.1 ++ "," ++ fmt val.2.2

/-! ## Construction and calibration -/

/-- The body of `hapticAPI::setPixelWidth` for given resolution and workspace constants. -/
def setPixelWidthWith (ops : DoubleOps D) (res0 res1 : Int) (ws0 ws1 ws2 : D)
    (st : hapticAPI D) : hapticAPI D :=
  let st := { st with res := (res0, res1) }
  let st := { st with workspaceSize := (ws0, ws1, ws2) }
  let st := { st with pixelWidth := ops.div st.workspaceSize.1 (ops.ofRat st.res.1) }
  let st :=
    if ops.lt st.workspaceSize.2.1 (ops.mul (ops.ofRat st.res.2) st.pixelWidth) then
      { st with pixelWidth := ops.div st.workspaceSize.2.1 (ops.ofRat st.res.2) }
    else st
  let st :=
    { st with
      offsetX :=
        ops.div (ops.sub st.workspaceSize.1 (ops.mul (ops.ofRat st.res.1) st.pixelWidth))
          (ops.ofRat 2) }
  { st with
    offsetY :=
      ops.div (ops.sub st.workspaceSize.2.1 (ops.mul (ops.ofRat st.res.2) st.pixelWidth))
        (ops.ofRat 2) }

/-- The function `hapticAPI::setPixelWidth` with its literal constants. -/
def setPixelWidth (ops : DoubleOps D) (st : hapticAPI D) : hapticAPI D :=
  setPixelWidthWith ops 1440 900 (ops.ofRat 0.20) (ops.ofRat 0.20) (ops.ofRat 0.055) st

/-- The function `hapticAPI::getNumDevice`. -/
def getNumDevice (drv : Driver D) : Int × List (Call D) :=
  (drv.hdPhantomGetNumDevices, [Call.hdPhantomGetNumDevices])

set_option linter.dupNamespace false in
/-- The constructor `hapticAPI::hapticAPI` ("State variables initialization").  Members the
constructor does not assign keep the indeterminate contents of `raw`, except `context`,
which `std::string` default-constructs to the empty string. -/
def hapticAPI.hapticAPI (ops : DoubleOps D) (drv : Driver D) (raw : hapticAPI D) :
    hapticAPI D × List (Call D) :=
  let st := { raw with context := "" }
  let st := { st with initialized := false }
  let n := getNumDevice drv
  let st := { st with deviceID := n.1 - 1 }
  let st := { st with InitializedString := "Initialized" }
  let st := { st with NotInitializedString := "Not initialized" }
  let st := { st with ConnectionString := "Connection opened" }
  let st := { st with DisconnectionString := "Connection closed" }
  (setPixelWidth ops st, n.2)

/-! ## Pointer emulation -/

/-- The function `hapticAPI::mouseRenderPosition`: both `double` arguments are converted to
the `int` parameters of `SetCursorPos`; `none` when a conversion is undefined. -/
def mouseRenderPosition (ops : DoubleOps D) (pos_x pos_y : D) : Option (List (Call D)) :=
  match ops.toInt pos_x, ops.toInt pos_y with
  | some a, some b => some [Call.SetCursorPos a b]
  | _, _ => none

/-- The function `hapticAPI::mouseRenderLeftButton`: one `SendInput` of left down and up. -/
def mouseRenderLeftButton : List (Call D) := [Call.SendInput]

/-- The function `hapticAPI::leftButton`. -/
def leftButton (drv : Driver D) (st : hapticAPI D) : Bool × List (Call D) :=
  let status := drv.hdPhantomGetButtons st.deviceID
  (if status = 1 then true else false, [Call.hdPhantomGetButtons st.deviceID])

/-! ## Exposed operations -/

/-- The function `hapticAPI::startDevice`. -/
def startDevice (drv : Driver D) (st : hapticAPI D) : Outcome D :=
  if !st.initialized then
    if drv.hdPhantomOpen st.deviceID ≠ -1 then
      let st1 := { st with initialized := true }
      ⟨Variant.bool st1.initialized, st1,
        [Call.hdPhantomOpen st.deviceID, Call.hdPhantomStartServo]⟩
    else
      ⟨Variant.bool st.initialized, st, [Call.hdPhantomOpen st.deviceID]⟩
  else
    ⟨Variant.bool st.initialized, st, []⟩

/-- The function `hapticAPI::stopDevice`. -/
def stopDevice (drv : Driver D) (st : hapticAPI D) : Outcome D :=
  if st.initialized then
    if drv.hdPhantomClose st.deviceID ≠ -1 then
      ⟨Variant.bool true, { st with initialized := false },
        [Call.hdPhantomClose st.deviceID, Call.hdPhantomStopServo]⟩
    else
      ⟨Variant.bool false, st, [Call.hdPhantomClose st.deviceID]⟩
  else
    ⟨Variant.bool false, st, []⟩

/-- The function `hapticAPI::sendForce`.  `raw` is the indeterminate initial content of the
local `double force[3]`; the result is `none` when `stringToArray` stores outside it. -/
def sendForce (ops : DoubleOps D) (atof : List Char → D) (drv : Driver D)
    (st : hapticAPI D) (raw : Vec3 D) (str : String) : Option (Outcome D) :=
  match stringToArray atof str raw with
  | none => none
  | some force =>
    let force : Vec3 D := (force.1, ops.neg force.2.1, force.2.2)
    if drv.hdPhantomSetForce st.deviceID force.2.2 force.1 force.2.1 ≠ -1 then
      some ⟨Variant.bool true, st,
        [Call.hdPhantomSetForce st.deviceID force.2.2 force.1 force.2.1]⟩
    else
      some ⟨Variant.bool false, st,
        [Call.hdPhantomSetForce st.deviceID force.2.2 force.1 force.2.1]⟩

/-- The function `hapticAPI::getPosition`; `none` when a pixel coordinate does not convert
to `int`. -/
def getPosition (ops : DoubleOps D) (fmt : D → String) (drv : Driver D)
    (st : hapticAPI D) : Option (Outcome D) :=
  if st.initialized then
    let st1 := { st with position := drv.hdPhantomGetPosition st.deviceID }
    let c0 : List (Call D) := [Call.hdPhantomGetPosition st.deviceID]
    if strcmp (c_str st1.context) (c_str "2d") = 0 then
      let buf : Vec3 D :=
        (ops.add (ops.add st1.position.2.1 (ops.ofRat 0.1)) st1.offsetX,
         ops.add (ops.neg (ops.sub st1.position.2.2 (ops.ofRat 0.1))) st1.offsetY,
         st1.position.1)
      let x := ops.div buf.1 st1.pixelWidth
      let y := ops.div buf.2.1 st1.pixelWidth
      match mouseRenderPosition ops x y with
      | none => none
      | some c1 =>
        let lb := leftButton drv st1
        let c2 : List (Call D) := if lb.1 then mouseRenderLeftButton else []
        some ⟨Variant.str (arrayToString fmt buf), st1, c0 ++ c1 ++ lb.2 ++ c2⟩
    else
      let buf : Vec3 D := (st1.position.2.1, ops.neg st1.position.2.2, ops.neg st1.position.1)
      some ⟨Variant.str (arrayToString fmt buf), st1, c0⟩
  else
    some ⟨Variant.str st.NotInitializedString, st, []⟩

/-- The function `hapticAPI::setContext`.  In C, `a || b` holds when either operand is
nonzero. -/
def setContext (st : hapticAPI D) (str : String) : Outcome D :=
  if strcmp (c_str str) (c_str "3d") ≠ 0 ∨ strcmp (c_str str) (c_str "2d") ≠ 0 then
    let st1 := { st with context := str }
    ⟨Variant.str st1.context, st1, []⟩
  else
    ⟨Variant.bool false, st, []⟩

/-! ## Reachable object states -/

/-- Object states a script can reach: the constructed object, then any sequence of the
registered operations that change members, each against an arbitrary driver. -/
inductive Reachable (ops : DoubleOps D) : hapticAPI D → Prop
  | construct (drv : Driver D) (raw : hapticAPI D) :
      Reachable ops (hapticAPI.hapticAPI ops drv raw).1
  | startDevice (drv : Driver D) {st : hapticAPI D} :
      Reachable ops st → Reachable ops (startDevice drv st).st
  | stopDevice (drv : Driver D) {st : hapticAPI D} :
      Reachable ops st → Reachable ops (stopDevice drv st).st
  | sendForce (atof : List Char → D) (drv : Driver D) (raw : Vec3 D) (str : String)
      {st : hapticAPI D} {o : Outcome D} :
      Reachable ops st → sendForce ops atof drv st raw str = some o → Reachable ops o.st
  | getPosition (fmt : D → String) (drv : Driver D) {st : hapticAPI D} {o : Outcome D} :
      Reachable ops st → getPosition ops fmt drv st = some o → Reachable ops o.st
  | setContext (str : String) {st : hapticAPI D} :
      Reachable ops st → Reachable ops (setContext st str).st

/-! ## Exact rational arithmetic -/

/-- Exact arithmetic on rationals; the conversion to `int` is defined on the 32-bit range. -/
def exactOps : DoubleOps ℚ where
  ofRat := fun q => q
  neg := fun a => -a
  add := fun a b => a + b
  sub := fun a b => a - b
  mul := fun a b => a * b
  div := fun a b => a / b
  lt := fun a b => decide (a < b)
  toInt := fun q =>
    if -2147483648 ≤ q.num.tdiv q.den ∧ q.num.tdiv q.den ≤ 2147483647 then
      some (q.num.tdiv q.den)
    else none

/-! ## IEEE 754 binary64 arithmetic -/

/-- A binary64 value: a signed finite magnitude (both zeros included), an infinity or a
NaN. -/
inductive Double
  | finite (sign : Bool) (mag : ℚ)
  | inf (sign : Bool)
  | nan
  deriving DecidableEq

/-- Round `p / q` to the nearest natural number, ties to even. -/
def roundDiv (p q : Nat) : Nat :=
  if q < 2 * (p % q) ∨ (2 * (p % q) = q ∧ (p / q) % 2 = 1) then p / q + 1 else p / q

/-- The binary logarithm of `n`, rounded down, computed by halving at most `fuel` times. -/
def log2Fuel : Nat → Nat → Nat
  | 0, _ => 0
  | f + 1, n => if n < 2 then 0 else log2Fuel f (n / 2) + 1

/-- Round the positive rational `n / d` to the nearest binary64 magnitude (53-bit
significand, least exponent -1022, ties to even); `none` on overflow. -/
def roundMag (n d : Nat) : Option ℚ :=
  let e0 : Int := (log2Fuel n n : Int) - (log2Fuel d d : Int)
  let ge : Bool := if 0 ≤ e0 then d * 2 ^ e0.toNat ≤ n else d ≤ n * 2 ^ (-e0).toNat
  let e : Int := if ge then e0 else e0 - 1
  let k : Int := max e (-1022) - 52
  let m : Nat :=
    if 0 ≤ k then roundDiv n (d * 2 ^ k.toNat) else roundDiv (n * 2 ^ (-k).toNat) d
  let v : ℚ := if 0 ≤ k then ((m * 2 ^ k.toNat : Nat) : ℚ) else mkRat m (2 ^ (-k).toNat)
  if ((2 ^ 1024 : Nat) : ℚ) ≤ v then none else some v

/-- The signed value of a finite binary64. -/
def Double.val (s : Bool) (mag : ℚ) : ℚ := if s then -mag else mag

/-- The binary64 nearest to an exactly known value. -/
def Double.ofRat (q : ℚ) : Double :=
  if q = 0 then Double.finite false 0
  else
    match roundMag q.num.natAbs q.den with
    | none => Double.inf (decide (q < 0))
    | some v => Double.finite (decide (q < 0)) v

/-- Unary minus: the sign bit is flipped, also on zero. -/
def Double.neg : Double → Double
  | Double.finite s m => Double.finite (!s) m
  | Double.inf s => Double.inf (!s)
  | Double.nan => Double.nan

/-- Addition. -/
def Double.add : Double → Double → Double
  | Double.finite s x, Double.finite t y =>
    if Double.val s x + Double.val t y = 0 then Double.finite (s && t) 0
    else Double.ofRat (Double.val s x + Double.val t y)
  | Double.finite _ _, Double.inf t => Double.inf t
  | Double.inf s, Double.finite _ _ => Double.inf s
  | Double.inf s, Double.inf t => if s = t then Double.inf s else Double.nan
  | _, _ => Double.nan

/-- Subtraction. -/
def Double.sub (a b : Double) : Double := Double.add a (Double.neg b)

/-- Multiplication. -/
def Double.mul : Double → Double → Double
  | Double.finite s x, Double.finite t y =>
    if x * y = 0 then Double.finite (xor s t) 0
    else Double.ofRat (Double.val s x * Double.val t y)
  | Double.finite s x, Double.inf t => if x = 0 then Double.nan else Double.inf (xor s t)
  | Double.inf s, Double.finite t y => if y = 0 then Double.nan else Double.inf (xor s t)
  | Double.inf s, Double.inf t => Double.inf (xor s t)
  | _, _ => Double.nan

/-- Division. -/
def Double.div : Double → Double → Double
  | Double.finite s x, Double.finite t y =>
    if y = 0 then (if x = 0 then Double.nan else Double.inf (xor s t))
    else if x = 0 then Double.finite (xor s t) 0
    else Double.ofRat (Double.val s x / Double.val t y)
  | Double.finite s _, Double.inf t => Double.finite (xor s t) 0
  | Double.inf s, Double.finite t _ => Double.inf (xor s t)
  | _, _ => Double.nan

/-- The comparison `a < b`; false when an operand is a NaN. -/
def Double.lt : Double → Double → Bool
  | Double.finite s x, Double.finite t y => decide (Double.val s x < Double.val t y)
  | Double.finite _ _, Double.inf t => !t
  | Double.inf s, Double.finite _ _ => s
  | Double.inf s, Double.inf t => s && !t
  | _, _ => false

/-- Conversion to 32-bit `int`: the value truncated toward zero when that fits, undefined
otherwise. -/
def Double.toInt : Double → Option Int
  | Double.finite s x =>
    if -2147483648 ≤ (Double.val s x).num.tdiv (Double.val s x).den ∧
        (Double.val s x).num.tdiv (Double.val s x).den ≤ 2147483647 then
      some ((Double.val s x).num.tdiv (Double.val s x).den)
    else none
  | _ => none

/-- IEEE 754 binary64 arithmetic, round to nearest even. -/
def ieee : DoubleOps Double where
  ofRat := Double.ofRat
  neg := Double.neg
  add := Double.add
  sub := Double.sub
  mul := Double.mul
  div := Double.div
  lt := Double.lt
  toInt := Double.toInt

/-! ## Concrete library models used in examples -/

/-- C `isspace` in the "C" locale. -/
def isspace (c : Char) : Bool := c = ' ' || (9 ≤ c.toNat && c.toNat ≤ 13)

/-- Read leading decimal digits: accumulated value, number of digits read, remaining input. -/
def readDigits : List Char → Nat → Nat → Nat × Nat × List Char
  | [], v, n => (v, n, [])
  | c :: cs, v, n =>
    if c.isDigit then readDigits cs (10 * v + (c.toNat - 48)) (n + 1) else (v, n, c :: cs)

/-- The value C `atof` assigns to a token holding a decimal floating literal: optional white
space, optional sign, digits with an optional point, optional exponent; trailing characters
are ignored and a token without digits reads as zero.  The result is the nearest binary64. -/
def atofDecimal (s : List Char) : Double :=
  let s := s.dropWhile isspace
  let sg : Bool × List Char :=
    match s with
    | '-' :: t => (true, t)
    | '+' :: t => (false, t)
    | _ => (false, s)
  let ip := readDigits sg.2 0 0
  let fp : Nat × Nat × List Char :=
    match ip.2.2 with
    | '.' :: t => readDigits t 0 0
    | _ => (0, 0, ip.2.2)
  if ip.2.1 + fp.2.1 = 0 then Double.finite false 0
  else
    let et : List Char :=
      match fp.2.2 with
      | 'e' :: t => t
      | 'E' :: t => t
      | _ => []
    let es : Bool × List Char :=
      match et with
      | '-' :: t => (true, t)
      | '+' :: t => (false, t)
      | _ => (false, et)
    let ex := readDigits es.2 0 0
    let m : ℚ := mkRat (ip.1 * 10 ^ fp.2.1 + fp.1 : Nat) (10 ^ fp.2.1)
    let v : ℚ := if es.1 then m / ((10 ^ ex.1 : Nat) : ℚ) else m * ((10 ^ ex.1 : Nat) : ℚ)
    if sg.1 then Double.neg (Double.ofRat v) else Double.ofRat v

/-- Largest `k ≤ fuel` with `d * 10 ^ k ≤ n`. -/
def expUp (n d : Nat) : Nat → Nat
  | 0 => 0
  | f + 1 => if d * 10 ≤ n then expUp n (d * 10) f + 1 else 0

/-- Smallest `k ≥ 1` with `d ≤ n * 10 ^ k` (for `0 < n < d`). -/
def expDown (n d : Nat) : Nat → Nat
  | 0 => 0
  | f + 1 => if d ≤ n * 10 then 1 else expDown (n * 10) d f + 1

/-- Remove trailing zero digits. -/
def stripZeros (ds : List Char) : List Char :=
  (ds.reverse.dropWhile (fun c => c = '0')).reverse

/-- The `%g` conversion with six significant digits of a positive value. -/
def showMag (q : ℚ) : List Char :=
  let n := q.num.natAbs
  let d := q.den
  let e0 : Int := if d ≤ n then (expUp n d n : Int) else -(expDown n d d : Int)
  let m0 : Nat :=
    if e0 ≤ 5 then roundDiv (n * 10 ^ (5 - e0).toNat) d
    else roundDiv n (d * 10 ^ (e0 - 5).toNat)
  let m : Nat := if 1000000 ≤ m0 then m0 / 10 else m0
  let e : Int := if 1000000 ≤ m0 then e0 + 1 else e0
  let ds := Nat.toDigits 10 m
  if e < -4 ∨ 6 ≤ e then
    let frac := stripZeros (ds.drop 1)
    let ex := Nat.toDigits 10 e.natAbs
    ds.take 1 ++ (if frac = [] then [] else '.' :: frac) ++ ['e']
      ++ [if e < 0 then '-' else '+'] ++ (if ex.length < 2 then '0' :: ex else ex)
  else if 0 ≤ e then
    let frac := stripZeros (ds.drop (e.toNat + 1))
    ds.take (e.toNat + 1) ++ (if frac = [] then [] else '.' :: frac)
  else
    '0' :: '.' :: (List.replicate ((-e).toNat - 1) '0' ++ stripZeros ds)

/-- The text the default `std::ostream << double` produces for a binary64 (the `%g`
conversion with six significant digits); infinities and NaN are written as C99 `printf`
writes them. -/
def showDouble : Double → String
  | Double.finite s q =>
    if q = 0 then (if s then "-0" else "0")
    else String.mk (if s then '-' :: showMag q else showMag q)
  | Double.inf s => if s then "-inf" else "inf"
  | Double.nan => "nan"

/-! ## Fixtures for the concrete examples -/

/-- A driver with one attached device whose open, close and force calls return `status`,
reporting the device at position `p` with button state `buttons`. -/
def driverAt (status : Int) (p : Vec3 Double) (buttons : Int) : Driver Double :=
  ⟨1, fun _ => status, fun _ => status, fun _ _ _ _ => status, fun _ => p, fun _ => buttons⟩

/-- A driver whose calls all succeed (status `0`), with the device at the origin and no
button pressed. -/
def drvOk : Driver Double :=
  driverAt 0 (Double.ofRat 0, Double.ofRat 0, Double.ofRat 0) 0

/-- A driver whose open, close and force calls all report the failure sentinel `-1`. -/
def drvFail : Driver Double :=
  driverAt (-1) (Double.ofRat 0, Double.ofRat 0, Double.ofRat 0) 0

/-- Some content for the members the constructor leaves unassigned. -/
def rawObject : hapticAPI Double :=
  ⟨7, (Double.ofRat 1, Double.ofRat 2, Double.ofRat 3), true, "", "", "", "", (0, 0),
    (Double.nan, Double.nan, Double.nan), Double.nan, Double.nan, Double.nan, "junk"⟩

/-- Some content for the local `double force[3]` of `sendForce`. -/
def rawForce : Vec3 Double := (Double.ofRat 7, Double.ofRat 8, Double.ofRat 9)

/-- The freshly constructed session. -/
def sessionNew : hapticAPI Double := (hapticAPI.hapticAPI ieee drvOk rawObject).1

/-- The session after a successful `startDevice`. -/
def sessionOpen : hapticAPI Double := (startDevice drvOk sessionNew).st

/-- The open session after `setContext("2d")`. -/
def session2d : hapticAPI Double := (setContext sessionOpen "2d").st

/-- Some content of an object in exact arithmetic. -/
def rawExact : hapticAPI ℚ :=
  ⟨7, (1, 2, 3), true, "", "", "", "", (0, 0), (0, 0, 0), 0, 0, 0, "junk"⟩

/-- A driver in exact arithmetic whose calls all succeed. -/
def drvExact : Driver ℚ :=
  ⟨1, fun _ => 0, fun _ => 0, fun _ _ _ _ => 0, fun _ => (0, 0, 0), fun _ => 0⟩

/-- The freshly constructed session in exact arithmetic. -/
def sessionExact : hapticAPI ℚ := (hapticAPI.hapticAPI exactOps drvExact rawExact).1

/-! ## Auxiliary lemmas -/

theorem strcmp_eq_zero_iff (a b : List Char) : strcmp a b = 0 ↔ a = b := by
  induction a generalizing b with
  | nil => cases b <;> simp [strcmp]
  | cons x xs ih =>
    cases b with
    | nil => simp [strcmp]
    | cons y ys =>
      by_cases hxy : x = y
      · simp [strcmp, hxy, ih]
      · simp only [strcmp, hxy, if_false, List.cons.injEq, false_and, iff_false]
        split_ifs <;> decide

theorem setContext_always (st : hapticAPI D) (str : String) :
    setContext st str = ⟨Variant.str str, { st with context := str }, []⟩ := by
  unfold setContext
  rw [if_pos]
  by_contra hcon
  rw [not_or, not_not, not_not, strcmp_eq_zero_iff, strcmp_eq_zero_iff] at hcon
  have h := hcon.1.symm.trans hcon.2
  revert h
  decide

theorem setPixelWidthWith_NotInitializedString (ops : DoubleOps D) (r0 r1 : Int)
    (w0 w1 w2 : D) (st : hapticAPI D) :
    (setPixelWidthWith ops r0 r1 w0 w1 w2 st).NotInitializedString
      = st.NotInitializedString := by
  unfold setPixelWidthWith
  dsimp only
  split_ifs <;> rfl

theorem setPixelWidthWith_context (ops : DoubleOps D) (r0 r1 : Int)
    (w0 w1 w2 : D) (st : hapticAPI D) :
    (setPixelWidthWith ops r0 r1 w0 w1 w2 st).context = st.context := by
  unfold setPixelWidthWith
  dsimp only
  split_ifs <;> rfl

theorem setPixelWidthWith_workspaceSize (ops : DoubleOps D) (r0 r1 : Int)
    (w0 w1 w2 : D) (st : hapticAPI D) :
    (setPixelWidthWith ops r0 r1 w0 w1 w2 st).workspaceSize = (w0, w1, w2) := by
  unfold setPixelWidthWith
  dsimp only
  split_ifs <;> rfl

theorem setPixelWidthWith_res (ops : DoubleOps D) (r0 r1 : Int)
    (w0 w1 w2 : D) (st : hapticAPI D) :
    (setPixelWidthWith ops r0 r1 w0 w1 w2 st).res = (r0, r1) := by
  unfold setPixelWidthWith
  dsimp only
  split_ifs <;> rfl

theorem setPixelWidthWith_offsetY (r0 r1 : Int) (w0 w1 w2 : ℚ) (st : hapticAPI ℚ) :
    (setPixelWidthWith exactOps r0 r1 w0 w1 w2 st).offsetY
      = (w1 - r1 * (setPixelWidthWith exactOps r0 r1 w0 w1 w2 st).pixelWidth) / 2 := by
  unfold setPixelWidthWith
  dsimp only [exactOps]
  split_ifs <;> rfl

theorem setPixelWidthWith_offsetX (r0 r1 : Int) (w0 w1 w2 : ℚ) (st : hapticAPI ℚ) :
    (setPixelWidthWith exactOps r0 r1 w0 w1 w2 st).offsetX
      = (w0 - r0 * (setPixelWidthWith exactOps r0 r1 w0 w1 w2 st).pixelWidth) / 2 := by
  unfold setPixelWidthWith
  dsimp only [exactOps]
  split_ifs <;> rfl

theorem setPixelWidthWith_pixelWidth (r0 r1 : Int) (w0 w1 w2 : ℚ) (st : hapticAPI ℚ)
    (h0 : 0 < r0) (h1 : 0 < r1) :
    (setPixelWidthWith exactOps r0 r1 w0 w1 w2 st).pixelWidth = min (w0 / r0) (w1 / r1) := by
  have hx0 : (0 : ℚ) < (r0 : ℚ) := by exact_mod_cast h0
  have hy0 : (0 : ℚ) < (r1 : ℚ) := by exact_mod_cast h1
  have hmul : (r1 : ℚ) * (w0 / r0) = r1 * w0 / r0 := by ring
  unfold setPixelWidthWith
  dsimp only [exactOps]
  split_ifs with hlt
  · dsimp only
    rw [decide_eq_true_eq, hmul, lt_div_iff₀ hx0] at hlt
    rw [min_eq_right]
    rw [div_le_div_iff₀ hy0 hx0]
    linarith
  · dsimp only
    rw [decide_eq_true_eq, hmul, lt_div_iff₀ hx0, not_lt] at hlt
    rw [min_eq_left]
    rw [div_le_div_iff₀ hx0 hy0]
    linarith

theorem construct_eq (ops : DoubleOps D) (drv : Driver D) (raw : hapticAPI D) :
    (hapticAPI.hapticAPI ops drv raw).1
      = setPixelWidthWith ops 1440 900 (ops.ofRat 0.20) (ops.ofRat 0.20) (ops.ofRat 0.055)
          { raw with
            context := "", initialized := false,
            deviceID := drv.hdPhantomGetNumDevices - 1,
            InitializedString := "Initialized",
            NotInitializedString := "Not initialized",
            ConnectionString := "Connection opened",
            DisconnectionString := "Connection closed" } := rfl

theorem sendForce_st {ops : DoubleOps D} {atof : List Char → D} {drv : Driver D}
    {st : hapticAPI D} {raw : Vec3 D} {str : String} {o : Outcome D}
    (h : sendForce ops atof drv st raw str = some o) : o.st = st := by
  unfold sendForce at h
  split at h
  · simp at h
  · dsimp only at h
    split_ifs at h <;> (simp only [Option.some.injEq] at h; subst h; rfl)

theorem getPosition_NotInitializedString {ops : DoubleOps D} {fmt : D → String}
    {drv : Driver D} {st : hapticAPI D} {o : Outcome D}
    (h : getPosition ops fmt drv st = some o) :
    o.st.NotInitializedString = st.NotInitializedString := by
  unfold getPosition at h
  dsimp only at h
  split_ifs at h
  all_goals first
    | (simp only [Option.some.injEq] at h; subst h; rfl)
    | (split at h
       · simp at h
       · simp only [Option.some.injEq] at h; subst h; rfl)

theorem reachable_NotInitializedString {ops : DoubleOps D} {st : hapticAPI D}
    (h : Reachable ops st) : st.NotInitializedString = "Not initialized" := by
  induction h with
  | construct drv raw =>
    rw [construct_eq, setPixelWidthWith_NotInitializedString]
  | startDevice drv _ ih =>
    unfold startDevice
    split_ifs <;> simpa using ih
  | stopDevice drv _ ih =>
    unfold stopDevice
    split_ifs <;> simpa using ih
  | sendForce atof drv raw str _ hs ih =>
    rw [sendForce_st hs]; exact ih
  | getPosition fmt drv _ hs ih =>
    rw [getPosition_NotInitializedString hs]; exact ih
  | setContext str _ ih =>
    rw [setContext_always]
    simpa using ih

theorem c_str_mk (l : List Char) (h : ∀ ch ∈ l, ch ≠ Char.ofNat 0) :
    c_str (String.mk l) = l := by
  unfold c_str
  show List.takeWhile (fun c => decide (c ≠ Char.ofNat 0)) l = l
  rw [List.takeWhile_eq_self_iff]
  intro x hx
  simpa using h x hx

theorem strtok_length {delim s tok rest : List Char}
    (h : strtok delim s = some (tok, rest)) : rest.length < s.length := by
  unfold strtok at h
  split at h
  · simp at h
  · next c cs hs =>
    simp only [Option.some.injEq, Prod.mk.injEq] at h
    have h1 : (c :: cs).length ≤ s.length := by
      rw [← hs]; exact (List.dropWhile_sublist _).length_le
    have h2 := (List.dropWhile_sublist (fun d => !(List.contains delim d)) (l := cs)).length_le
    rw [← h.2, List.length_drop]
    simp only [List.length_cons] at h1
    omega

theorem strtok_token (tok rest : List Char) (h1 : tok ≠ []) (h2 : ∀ ch ∈ tok, ch ≠ ',') :
    strtok [','] (tok ++ ',' :: rest) = some (tok, rest) := by
  cases tok with
  | nil => exact absurd rfl h1
  | cons c cs =>
    have hc : c ≠ ',' := h2 c (List.mem_cons_self _ _)
    have hcs : ∀ a ∈ cs, (fun d => !(List.contains [','] d)) a = true := by
      intro a ha
      simpa using h2 a (List.mem_cons_of_mem _ ha)
    unfold strtok
    rw [List.cons_append, List.dropWhile_cons_of_neg (by simpa using hc)]
    dsimp only
    rw [List.takeWhile_append_of_pos hcs, List.dropWhile_append_of_pos hcs]
    simp

theorem strtok_last (tok : List Char) (h1 : tok ≠ []) (h2 : ∀ ch ∈ tok, ch ≠ ',') :
    strtok [','] tok = some (tok, []) := by
  cases tok with
  | nil => exact absurd rfl h1
  | cons c cs =>
    have hc : c ≠ ',' := h2 c (List.mem_cons_self _ _)
    have hcs : ∀ a ∈ cs, (fun d => !(List.contains [','] d)) a = true := by
      intro a ha
      simpa using h2 a (List.mem_cons_of_mem _ ha)
    unfold strtok
    rw [List.dropWhile_cons_of_neg (by simpa using hc)]
    dsimp only
    rw [List.takeWhile_eq_self_iff.mpr hcs, List.dropWhile_eq_nil_iff.mpr hcs]
    rfl

theorem stringToArrayLoop_none (atof : List Char → D) (num rest : List Char) (i : Nat)
    (h : strtok [','] rest = none) :
    stringToArrayLoop atof num rest i = [(i, atof num)] := by
  rw [stringToArrayLoop]
  split
  · rfl
  · next heq => rw [h] at heq; cases heq

theorem stringToArrayLoop_some (atof : List Char → D) (num rest num2 rest2 : List Char)
    (i : Nat) (h : strtok [','] rest = some (num2, rest2)) :
    stringToArrayLoop atof num rest i
      = (i, atof num) :: stringToArrayLoop atof num2 rest2 (i + 1) := by
  rw [stringToArrayLoop]
  split
  · next heq => rw [h] at heq; cases heq
  · next heq =>
    rw [h] at heq
    simp only [Option.some.injEq, Prod.mk.injEq] at heq
    rw [heq.1, heq.2]

theorem stringToArrayLoop_fst (atof : List Char → D) (n : Nat) :
    ∀ (num rest : List Char) (i : Nat), rest.length ≤ n →
      (stringToArrayLoop atof num rest i).map Prod.fst
        = List.range' i (stringToArrayLoop atof num rest i).length := by
  induction n with
  | zero =>
    intro num rest i hn
    have hr : rest = [] := List.length_eq_zero.mp (Nat.le_zero.mp hn)
    subst hr
    rw [stringToArrayLoop_none atof num [] i rfl]
    rfl
  | succ n ih =>
    intro num rest i hn
    cases h : strtok [','] rest with
    | none =>
      rw [stringToArrayLoop_none atof num rest i h]
      rfl
    | some p =>
      obtain ⟨num2, rest2⟩ := p
      have hlt := strtok_length h
      rw [stringToArrayLoop_some atof num rest num2 rest2 i h]
      simp only [List.map_cons, List.length_cons, List.range'_succ, List.cons.injEq, true_and]
      exact ih num2 rest2 (i + 1) (by omega)

theorem stringToArrayStores_fst (atof : List Char → D) (str : String) :
    (stringToArrayStores atof str).map Prod.fst
      = List.range (stringToArrayStores atof str).length := by
  unfold stringToArrayStores
  split
  · rfl
  · rw [List.range_eq_range']
    exact stringToArrayLoop_fst atof _ _ _ _ (le_refl _)

theorem storeAll_range (ws : List (Nat × D)) :
    ∀ (val : Vec3 D) (i : Nat), ws.map Prod.fst = List.range' i ws.length →
      ((∃ v, Vec3.storeAll val ws = some v) ↔ (ws = [] ∨ i + ws.length ≤ 3)) := by
  induction ws with
  | nil => intro val i _; simp [Vec3.storeAll]
  | cons w ws ih =>
    intro val i h
    obtain ⟨j, v⟩ := w
    simp only [List.map_cons, List.length_cons, List.range'_succ, List.cons.injEq] at h
    obtain ⟨hj, hws⟩ := h
    subst hj
    have hih := fun val2 => ih val2 (j + 1) hws
    simp only [Vec3.storeAll, List.length_cons]
    by_cases hj3 : j < 3
    · have hst : ∃ val2, Vec3.store val j v = some val2 := by
        interval_cases j <;> exact ⟨_, rfl⟩
      obtain ⟨val2, hval2⟩ := hst
      rw [hval2]
      dsimp only
      rw [hih val2]
      cases ws with
      | nil => simp; omega
      | cons w2 ws2 => simp; omega
    · have hst : Vec3.store val j v = none := by
        unfold Vec3.store
        split <;> first | omega | rfl
      rw [hst]
      simp
      omega

theorem stringToArray_defined_iff (atof : List Char → D) (str : String) (val : Vec3 D) :
    (∃ v, stringToArray atof str val = some v) ↔ (stringToArrayStores atof str).length ≤ 3 := by
  unfold stringToArray
  rw [storeAll_range _ val 0 (by rw [← List.range_eq_range']; exact stringToArrayStores_fst atof str)]
  constructor
  · rintro (h | h)
    · rw [h]; simp
    · omega
  · intro h; right; omega

theorem stringToArrayStores_three (atof : List Char → D) (a b c : List Char)
    (ha : a ≠ []) (hb : b ≠ []) (hc : c ≠ [])
    (ha2 : ∀ ch ∈ a, ch ≠ ',' ∧ ch ≠ Char.ofNat 0)
    (hb2 : ∀ ch ∈ b, ch ≠ ',' ∧ ch ≠ Char.ofNat 0)
    (hc2 : ∀ ch ∈ c, ch ≠ ',' ∧ ch ≠ Char.ofNat 0) :
    stringToArrayStores atof (String.mk (a ++ ',' :: (b ++ ',' :: c)))
      = [(0, atof a), (1, atof b), (2, atof c)] := by
  have hnul : ∀ ch ∈ a ++ ',' :: (b ++ ',' :: c), ch ≠ Char.ofNat 0 := by
    intro ch hch
    simp only [List.mem_append, List.mem_cons] at hch
    rcases hch with h | h | h | h | h
    · exact (ha2 ch h).2
    · rw [h]; decide
    · exact (hb2 ch h).2
    · rw [h]; decide
    · exact (hc2 ch h).2
  unfold stringToArrayStores
  rw [c_str_mk _ hnul, strtok_token a _ ha (fun ch h => (ha2 ch h).1)]
  dsimp only
  rw [stringToArrayLoop_some atof a _ b c 0 (strtok_token b c hb (fun ch h => (hb2 ch h).1)),
    stringToArrayLoop_some atof b c c [] 1 (strtok_last c hc (fun ch h => (hc2 ch h).1)),
    stringToArrayLoop_none atof c [] 2 rfl]

/-! ## Claims -/

/-- C1 (code defect).  `setContext("xyz")` is accepted: whatever the session, the call
returns the string "xyz" instead of `false` and overwrites the stored mode with "xyz"
(on the constructed session the mode changes from the empty string); the same holds for
every argument, because the test `strcmp(s,"3d") || strcmp(s,"2d")` is true for every
string. -/
theorem setContext_xyz_accepted (st : hapticAPI D) :
    (setContext st "xyz").ret = Variant.str "xyz" ∧
    (setContext st "xyz").st.context = "xyz" ∧
    (setContext st "xyz").ret ≠ Variant.bool false ∧
    (setContext sessionNew "xyz").st.context ≠ sessionNew.context ∧
    ∀ s : String, (setContext st s).ret = Variant.str s ∧ (setContext st s).st.context = s := by
  refine ⟨?_, ?_, ?_, ?_, ?_⟩
  · rw [setContext_always]
  · rw [setContext_always]
  · rw [setContext_always]; simp
  · decide!
  · intro s; rw [setContext_always]; exact ⟨rfl, rfl⟩

/-- C5.  `startDevice`: on an open session no driver call is made, `initialized` stays
true and `true` is returned; on a closed session `hdPhantomOpen(deviceID)` is called exactly
once, and `initialized` becomes true and `hdPhantomStartServo` is called exactly when the
driver's result is not `-1`, otherwise `initialized` stays false and no servo call is made;
the returned value is always the resulting `initialized`, no other driver entry point is
called and no other member changes. -/
theorem startDevice_spec (drv : Driver D) (st : hapticAPI D) :
    (startDevice drv st).ret = Variant.bool (startDevice drv st).st.initialized ∧
    (startDevice drv st).st = { st with initialized := (startDevice drv st).st.initialized } ∧
    ((startDevice drv st).st.initialized = true ↔
      (st.initialized = true ∨ drv.hdPhantomOpen st.deviceID ≠ -1)) ∧
    (startDevice drv st).calls =
      (if st.initialized = true then []
       else Call.hdPhantomOpen st.deviceID ::
         (if drv.hdPhantomOpen st.deviceID ≠ -1 then [Call.hdPhantomStartServo] else [])) := by
  unfold startDevice
  cases hi : st.initialized <;> by_cases ho : drv.hdPhantomOpen st.deviceID = -1 <;>
    simp [hi, ho] <;> cases st <;> simp_all

/-- C6.  `stopDevice`: on a closed session no driver call is made, `initialized` stays
false and `false` is returned; on an open session `hdPhantomClose(deviceID)` is called
exactly once, and exactly when the driver's result is not `-1` the servo loop is stopped,
`initialized` becomes false and `true` is returned, otherwise `false` is returned with
`initialized` still true and no servo call; no other member changes. -/
theorem stopDevice_spec (drv : Driver D) (st : hapticAPI D) :
    ((stopDevice drv st).ret = Variant.bool true ↔
      (st.initialized = true ∧ drv.hdPhantomClose st.deviceID ≠ -1)) ∧
    ((stopDevice drv st).ret = Variant.bool false ↔
      (st.initialized = false ∨ drv.hdPhantomClose st.deviceID = -1)) ∧
    (stopDevice drv st).st = { st with initialized := (stopDevice drv st).st.initialized } ∧
    ((stopDevice drv st).st.initialized = true ↔
      (st.initialized = true ∧ drv.hdPhantomClose st.deviceID = -1)) ∧
    (stopDevice drv st).calls =
      (if st.initialized = true then
         Call.hdPhantomClose st.deviceID ::
           (if drv.hdPhantomClose st.deviceID ≠ -1 then [Call.hdPhantomStopServo] else [])
       else []) := by
  unfold stopDevice
  cases hi : st.initialized <;> by_cases ho : drv.hdPhantomClose st.deviceID = -1 <;>
    simp [hi, ho] <;> cases st <;> simp_all

/-- C8.  On every reachable session with `initialized` false, whatever the mode, the
arithmetic, the formatter and the driver, `getPosition` is defined and returns exactly the
string "Not initialized", calls nothing and leaves the object unchanged. -/
theorem getPosition_closed (ops : DoubleOps D) (fmt : D → String) (drv : Driver D)
    (st : hapticAPI D) (hr : Reachable ops st) (hc : st.initialized = false) :
    getPosition ops fmt drv st = some ⟨Variant.str "Not initialized", st, []⟩ := by
  unfold getPosition
  rw [hc, reachable_NotInitializedString hr]
  rfl

theorem getPosition_closed_witness :
    sessionNew.initialized = false ∧
    getPosition ieee showDouble drvOk sessionNew =
      some ⟨Variant.str "Not initialized", sessionNew, []⟩ :=
  ⟨by decide!, getPosition_closed ieee showDouble drvOk sessionNew
    (Reachable.construct drvOk rawObject) (by decide!)⟩

/-- C9.  In exact rational arithmetic, for positive resolution `resX`, `resY` the
calibration of `setPixelWidth` makes `pixelWidth` the smaller of `width / resX` and
`height / resY`, with `offsetX = (width - resX * pixelWidth) / 2` and
`offsetY = (height - resY * pixelWidth) / 2`, so `resX * pixelWidth ≤ width`,
`resY * pixelWidth ≤ height` and both offsets are non-negative; with the constants of the
source, (0.20, 0.20, 0.055) and (1440, 900), set at construction, `pixelWidth = 0.20 / 1440`
and `offsetY = (0.20 - 900 * pixelWidth) / 2`. -/
theorem setPixelWidth_calibration (resX resY : Int) (width height depth : ℚ)
    (st : hapticAPI ℚ) (drv : Driver ℚ) (hw : 0 < width) (hh : 0 < height)
    (hx : 0 < resX) (hy : 0 < resY) :
    (setPixelWidthWith exactOps resX resY width height depth st).pixelWidth
      = min (width / resX) (height / resY) ∧
    (setPixelWidthWith exactOps resX resY width height depth st).offsetX
      = (width
          - resX * (setPixelWidthWith exactOps resX resY width height depth st).pixelWidth)
        / 2 ∧
    (setPixelWidthWith exactOps resX resY width height depth st).offsetY
      = (height
          - resY * (setPixelWidthWith exactOps resX resY width height depth st).pixelWidth)
        / 2 ∧
    0 < (setPixelWidthWith exactOps resX resY width height depth st).pixelWidth ∧
    resX * (setPixelWidthWith exactOps resX resY width height depth st).pixelWidth ≤ width ∧
    resY * (setPixelWidthWith exactOps resX resY width height depth st).pixelWidth ≤ height ∧
    0 ≤ (setPixelWidthWith exactOps resX resY width height depth st).offsetX ∧
    0 ≤ (setPixelWidthWith exactOps resX resY width height depth st).offsetY ∧
    (hapticAPI.hapticAPI exactOps drv st).1.workspaceSize = (0.20, 0.20, 0.055) ∧
    (hapticAPI.hapticAPI exactOps drv st).1.res = (1440, 900) ∧
    (hapticAPI.hapticAPI exactOps drv st).1.pixelWidth = 0.20 / 1440 ∧
    (hapticAPI.hapticAPI exactOps drv st).1.offsetY
      = (0.20 - 900 * (hapticAPI.hapticAPI exactOps drv st).1.pixelWidth) / 2 := by
  have hx0 : (0 : ℚ) < (resX : ℚ) := by exact_mod_cast hx
  have hy0 : (0 : ℚ) < (resY : ℚ) := by exact_mod_cast hy
  have key := setPixelWidthWith_pixelWidth resX resY width height depth st hx hy
  have hoX := setPixelWidthWith_offsetX resX resY width height depth st
  have hoY := setPixelWidthWith_offsetY resX resY width height depth st
  have hpos : 0 < (setPixelWidthWith exactOps resX resY width height depth st).pixelWidth := by
    rw [key]; exact lt_min (div_pos hw hx0) (div_pos hh hy0)
  have hX : resX * (setPixelWidthWith exactOps resX resY width height depth st).pixelWidth
      ≤ width := by
    rw [key]
    calc (resX : ℚ) * min (width / resX) (height / resY)
        ≤ resX * (width / resX) := mul_le_mul_of_nonneg_left (min_le_left _ _) hx0.le
      _ = width := by field_simp
  have hY : resY * (setPixelWidthWith exactOps resX resY width height depth st).pixelWidth
      ≤ height := by
    rw [key]
    calc (resY : ℚ) * min (width / resX) (height / resY)
        ≤ resY * (height / resY) := mul_le_mul_of_nonneg_left (min_le_right _ _) hy0.le
      _ = height := by field_simp
  have hc : (hapticAPI.hapticAPI exactOps drv st).1
      = setPixelWidthWith exactOps 1440 900 0.20 0.20 0.055
          { st with
            context := "", initialized := false,
            deviceID := drv.hdPhantomGetNumDevices - 1,
            InitializedString := "Initialized",
            NotInitializedString := "Not initialized",
            ConnectionString := "Connection opened",
            DisconnectionString := "Connection closed" } := construct_eq exactOps drv st
  have hcp : (hapticAPI.hapticAPI exactOps drv st).1.pixelWidth = 0.20 / 1440 := by
    rw [hc, setPixelWidthWith_pixelWidth _ _ _ _ _ _ (by norm_num) (by norm_num)]
    norm_num
  refine ⟨key, hoX, hoY, hpos, hX, hY, ?_, ?_, ?_, ?_, hcp, ?_⟩
  · rw [hoX]; linarith
  · rw [hoY]; linarith
  · rw [hc]; exact setPixelWidthWith_workspaceSize _ _ _ _ _ _ _
  · rw [hc]; exact setPixelWidthWith_res _ _ _ _ _ _ _
  · rw [hc, setPixelWidthWith_offsetY]; norm_num

theorem setPixelWidth_calibration_witness :
    (setPixelWidthWith exactOps 1440 900 0.20 0.20 0.055 rawExact).pixelWidth
      = min ((0.20 : ℚ) / (1440 : Int)) (0.20 / (900 : Int)) ∧
    sessionExact.pixelWidth = 0.20 / 1440 ∧
    sessionExact.offsetY = (0.20 - 900 * sessionExact.pixelWidth) / 2 ∧
    sessionExact.offsetY = 0.0375 := by
  have h := setPixelWidth_calibration 1440 900 0.20 0.20 0.055 rawExact drvExact
    (by norm_num) (by norm_num) (by decide) (by decide)
  refine ⟨h.1, h.2.2.2.2.2.2.2.2.2.2.1, h.2.2.2.2.2.2.2.2.2.2.2, ?_⟩
  have h1 : sessionExact.pixelWidth = 0.20 / 1440 := h.2.2.2.2.2.2.2.2.2.2.1
  have h2 : sessionExact.offsetY = (0.20 - 900 * sessionExact.pixelWidth) / 2 :=
    h.2.2.2.2.2.2.2.2.2.2.2
  rw [h2, h1]
  norm_num

/-- C2.  For a force string made of exactly three comma-separated numbers `a,b,c`
(non-empty tokens without comma or NUL), `sendForce` is defined, calls
`hdPhantomSetForce` exactly once, with arguments `(deviceID, z = c, x = a, y = -b)`, makes
no other call, leaves the object unchanged and returns `true` if and only if the driver's
result is not `-1` (and `false` otherwise). -/
theorem sendForce_three_numbers (ops : DoubleOps D) (atof : List Char → D) (drv : Driver D)
    (st : hapticAPI D) (raw : Vec3 D) (a b c : List Char)
    (ha : a ≠ []) (hb : b ≠ []) (hc : c ≠ [])
    (ha2 : ∀ ch ∈ a, ch ≠ ',' ∧ ch ≠ Char.ofNat 0)
    (hb2 : ∀ ch ∈ b, ch ≠ ',' ∧ ch ≠ Char.ofNat 0)
    (hc2 : ∀ ch ∈ c, ch ≠ ',' ∧ ch ≠ Char.ofNat 0) :
    ∃ o : Outcome D,
      sendForce ops atof drv st raw (String.mk (a ++ ',' :: (b ++ ',' :: c))) = some o ∧
      o.calls = [Call.hdPhantomSetForce st.deviceID (atof c) (atof a) (ops.neg (atof b))] ∧
      o.st = st ∧
      (o.ret = Variant.bool true ↔
        drv.hdPhantomSetForce st.deviceID (atof c) (atof a) (ops.neg (atof b)) ≠ -1) ∧
      (o.ret = Variant.bool false ↔
        drv.hdPhantomSetForce st.deviceID (atof c) (atof a) (ops.neg (atof b)) = -1) := by
  have hs := stringToArrayStores_three atof a b c ha hb hc ha2 hb2 hc2
  have hv : stringToArray atof (String.mk (a ++ ',' :: (b ++ ',' :: c))) raw
      = some (atof a, atof b, atof c) := by
    unfold stringToArray
    rw [hs]
    rfl
  unfold sendForce
  rw [hv]
  dsimp only
  by_cases hd : drv.hdPhantomSetForce st.deviceID (atof c) (atof a) (ops.neg (atof b)) = -1
  · rw [if_neg (not_not.mpr hd)]
    exact ⟨_, rfl, rfl, rfl, by simp [hd], by simp [hd]⟩
  · rw [if_pos hd]
    exact ⟨_, rfl, rfl, rfl, by simp [hd], by simp [hd]⟩

theorem sendForce_three_numbers_witness :
    ∃ o : Outcome Double,
      sendForce ieee atofDecimal drvOk sessionOpen rawForce "1.0,2.0,3.0" = some o ∧
      o.calls = [Call.hdPhantomSetForce 0 (Double.finite false 3) (Double.finite false 1)
        (Double.finite true 2)] ∧
      o.ret = Variant.bool true := by
  obtain ⟨o, h1, h2, _, h4, _⟩ :=
    sendForce_three_numbers ieee atofDecimal drvOk sessionOpen rawForce
      ['1', '.', '0'] ['2', '.', '0'] ['3', '.', '0']
      (by decide) (by decide) (by decide) (by decide) (by decide) (by decide)
  refine ⟨o, h1, ?_, ?_⟩
  · rw [h2]; decide!
  · exact h4.mpr (by decide!)

/-- C4 (code defect).  `sendForce` does not test `initialized`: on the freshly
constructed, closed session `sendForce("1.0,2.0,3.0")` calls
`hdPhantomSetForce(0, 3, 1, -2)`; with a driver that accepts the call it returns `true`,
and with a driver that reports `-1` the call is still made. -/
theorem sendForce_closed_not_guarded :
    sessionNew.initialized = false ∧
    sendForce ieee atofDecimal drvOk sessionNew rawForce "1.0,2.0,3.0"
      = some ⟨Variant.bool true, sessionNew,
          [Call.hdPhantomSetForce 0 (Double.finite false 3) (Double.finite false 1)
            (Double.finite true 2)]⟩ ∧
    sendForce ieee atofDecimal drvFail sessionNew rawForce "1.0,2.0,3.0"
      = some ⟨Variant.bool false, sessionNew,
          [Call.hdPhantomSetForce 0 (Double.finite false 3) (Double.finite false 1)
            (Double.finite true 2)]⟩ := by
  decide!

/-- C10 (code defect).  The loop of `stringToArray` has no bound on its counter: for the
string "1,2,3,4" it executes four stores, the last one `val[3] = 4`, outside the
`double force[3]` that `sendForce` passes, so `stringToArray` and `sendForce` are undefined
on that input. -/
theorem stringToArray_four_tokens_out_of_bounds :
    stringToArrayStores atofDecimal "1,2,3,4"
      = [(0, Double.finite false 1), (1, Double.finite false 2),
         (2, Double.finite false 3), (3, Double.finite false 4)] ∧
    stringToArray atofDecimal "1,2,3,4" rawForce = none ∧
    sendForce ieee atofDecimal drvOk sessionOpen rawForce "1,2,3,4" = none := by
  decide!

/-- C7.  On an open session whose mode is not "2d" (mode "3d", or the empty default
mode of a constructed session), if the driver reports the raw position `(x, y, z)` then
`getPosition` is defined and returns the text encoding of `(y, -z, -x)`, that is the text
of `y`, of `-z` and of `-x` joined by commas, stores the raw position, and its only
external call is `hdPhantomGetPosition(deviceID)`: neither `SetCursorPos` nor `SendInput`
is called, whatever the button state. -/
theorem getPosition_raw3d (ops : DoubleOps D) (fmt : D → String) (drv : Driver D)
    (st raw : hapticAPI D) (x y z : D)
    (hopen : st.initialized = true) (hmode : c_str st.context ≠ ['2', 'd'])
    (hpos : drv.hdPhantomGetPosition st.deviceID = (x, y, z)) :
    getPosition ops fmt drv st
      = some ⟨Variant.str (fmt y ++ "," ++ fmt (ops.neg z) ++ "," ++ fmt (ops.neg x)),
          { st with position := (x, y, z) }, [Call.hdPhantomGetPosition st.deviceID]⟩ ∧
    fmt y ++ "," ++ fmt (ops.neg z) ++ "," ++ fmt (ops.neg x)
      = arrayToString fmt (y, ops.neg z, ops.neg x) ∧
    (∀ o, getPosition ops fmt drv st = some o →
      (∀ (a b : Int), Call.SetCursorPos a b ∉ o.calls) ∧ Call.SendInput ∉ o.calls) ∧
    c_str "3d" ≠ ['2', 'd'] ∧
    c_str (hapticAPI.hapticAPI ops drv raw).1.context ≠ ['2', 'd'] := by
  have hne : ¬ strcmp (c_str st.context) (c_str "2d") = 0 := by
    rw [strcmp_eq_zero_iff]
    exact hmode
  have hg : getPosition ops fmt drv st
      = some ⟨Variant.str (fmt y ++ "," ++ fmt (ops.neg z) ++ "," ++ fmt (ops.neg x)),
          { st with position := (x, y, z) }, [Call.hdPhantomGetPosition st.deviceID]⟩ := by
    unfold getPosition
    rw [if_pos hopen]
    dsimp only
    rw [if_neg hne, hpos]
    rfl
  refine ⟨hg, rfl, ?_, by decide, ?_⟩
  · intro o ho
    rw [hg] at ho
    simp only [Option.some.injEq] at ho
    subst ho
    simp
  · rw [construct_eq, setPixelWidthWith_context]
    show c_str "" ≠ ['2', 'd']
    decide

theorem getPosition_raw3d_witness :
    sessionOpen.initialized = true ∧ sessionOpen.context = "" ∧
    (getPosition ieee showDouble
        (driverAt 0 (Double.ofRat 1, Double.ofRat 2, Double.ofRat 3) 1) sessionOpen).map
      (fun o => (o.ret, o.calls))
      = some (Variant.str "2,-3,-1", [Call.hdPhantomGetPosition 0]) ∧
    (getPosition ieee showDouble
        (driverAt 0 (Double.ofRat 0.25, Double.ofRat (-0.5), Double.ofRat 0.125) 0)
        sessionOpen).map (fun o => (o.ret, o.calls))
      = some (Variant.str "-0.5,-0.125,-0.25", [Call.hdPhantomGetPosition 0]) ∧
    (getPosition ieee showDouble drvOk sessionOpen).map (fun o => (o.ret, o.calls))
      = some (Variant.str "0,-0,-0", [Call.hdPhantomGetPosition 0]) := by
  have h1 := getPosition_raw3d ieee showDouble
    (driverAt 0 (Double.ofRat 1, Double.ofRat 2, Double.ofRat 3) 1) sessionOpen rawObject
    (Double.ofRat 1) (Double.ofRat 2) (Double.ofRat 3) (by decide!) (by decide!) rfl
  have h2 := getPosition_raw3d ieee showDouble
    (driverAt 0 (Double.ofRat 0.25, Double.ofRat (-0.5), Double.ofRat 0.125) 0) sessionOpen
    rawObject (Double.ofRat 0.25) (Double.ofRat (-0.5)) (Double.ofRat 0.125)
    (by decide!) (by decide!) rfl
  have h3 := getPosition_raw3d ieee showDouble drvOk sessionOpen rawObject
    (Double.ofRat 0) (Double.ofRat 0) (Double.ofRat 0) (by decide!) (by decide!) rfl
  refine ⟨by decide!, by decide!, ?_, ?_, ?_⟩
  · rw [h1.1]; decide!
  · rw [h2.1]; decide!
  · rw [h3.1]; decide!

/-- C3 (counterexample).  On the open session in mode "2d", in binary64 arithmetic, with
the device at `(0.03, -0.125, 0.25)` and the button pressed, `getPosition` returns
"-0.025,-0.1125,0.03": the metre values `y + 0.1 + offsetX` and `-(z - 0.1) + offsetY`,
not the text "-180,-810,0.03" of the pixel coordinates obtained by dividing them by
`pixelWidth`; the pixel coordinates only reach `SetCursorPos`, truncated to `(-179, -809)`.
With the device at the origin the returned text is "0.1,0.1375,0", not "720,990,0". -/
theorem getPosition_2d_not_pixels :
    session2d.initialized = true ∧ session2d.context = "2d" ∧
    (getPosition ieee showDouble
        (driverAt 0 (Double.ofRat 0.03, Double.ofRat (-0.125), Double.ofRat 0.25) 1)
        session2d).map (fun o => (o.ret, o.calls))
      = some (Variant.str "-0.025,-0.1125,0.03",
          [Call.hdPhantomGetPosition 0, Call.SetCursorPos (-179) (-809),
           Call.hdPhantomGetButtons 0, Call.SendInput]) ∧
    arrayToString showDouble
        (Double.div (Double.add (Double.add (Double.ofRat (-0.125)) (Double.ofRat 0.1))
            session2d.offsetX) session2d.pixelWidth,
         Double.div (Double.add (Double.neg (Double.sub (Double.ofRat 0.25)
            (Double.ofRat 0.1))) session2d.offsetY) session2d.pixelWidth,
         Double.ofRat 0.03) = "-180,-810,0.03" ∧
    (getPosition ieee showDouble
        (driverAt 0 (Double.ofRat 0.03, Double.ofRat (-0.125), Double.ofRat 0.25) 1)
        session2d).map (fun o => o.ret)
      ≠ some (Variant.str (arrayToString showDouble
        (Double.div (Double.add (Double.add (Double.ofRat (-0.125)) (Double.ofRat 0.1))
            session2d.offsetX) session2d.pixelWidth,
         Double.div (Double.add (Double.neg (Double.sub (Double.ofRat 0.25)
            (Double.ofRat 0.1))) session2d.offsetY) session2d.pixelWidth,
         Double.ofRat 0.03))) ∧
    (getPosition ieee showDouble drvOk session2d).map (fun o => (o.ret, o.calls))
      = some (Variant.str "0.1,0.1375,0",
          [Call.hdPhantomGetPosition 0, Call.SetCursorPos 720 990,
           Call.hdPhantomGetButtons 0]) ∧
    arrayToString showDouble
        (Double.div (Double.add (Double.add (Double.ofRat 0) (Double.ofRat 0.1))
            session2d.offsetX) session2d.pixelWidth,
         Double.div (Double.add (Double.neg (Double.sub (Double.ofRat 0)
            (Double.ofRat 0.1))) session2d.offsetY) session2d.pixelWidth,
         Double.ofRat 0) = "720,990,0" := by
  decide!

/-- C3 (amended).  On an open session in mode "2d", if the driver reports the raw position
`(x, y, z)`, put `bufX = y + 0.1 + offsetX` and `bufY = -(z - 0.1) + offsetY`.  When the
quotients `bufX / pixelWidth` and `bufY / pixelWidth` convert to the `int` values `px` and
`py`, `getPosition` returns the text of `bufX`, of `bufY` and of `x` joined by commas (the
first two components are not divided by `pixelWidth`), stores the raw position, and calls
in this order `hdPhantomGetPosition(deviceID)`, `SetCursorPos(px, py)`,
`hdPhantomGetButtons(deviceID)` and, exactly when the button state is 1, `SendInput`. -/
theorem getPosition_2d (ops : DoubleOps D) (fmt : D → String) (drv : Driver D)
    (st : hapticAPI D) (x y z : D) (px py : Int)
    (hopen : st.initialized = true) (hmode : c_str st.context = ['2', 'd'])
    (hpos : drv.hdPhantomGetPosition st.deviceID = (x, y, z))
    (hpx : ops.toInt
      (ops.div (ops.add (ops.add y (ops.ofRat 0.1)) st.offsetX) st.pixelWidth) = some px)
    (hpy : ops.toInt
      (ops.div (ops.add (ops.neg (ops.sub z (ops.ofRat 0.1))) st.offsetY) st.pixelWidth)
        = some py) :
    getPosition ops fmt drv st
      = some ⟨Variant.str
            (fmt (ops.add (ops.add y (ops.ofRat 0.1)) st.offsetX) ++ ","
              ++ fmt (ops.add (ops.neg (ops.sub z (ops.ofRat 0.1))) st.offsetY) ++ ","
              ++ fmt x),
          { st with position := (x, y, z) },
          [Call.hdPhantomGetPosition st.deviceID, Call.SetCursorPos px py,
           Call.hdPhantomGetButtons st.deviceID]
            ++ (if drv.hdPhantomGetButtons st.deviceID = 1 then [Call.SendInput] else [])⟩ := by
  have heq : strcmp (c_str st.context) (c_str "2d") = 0 := by
    rw [strcmp_eq_zero_iff, hmode]
    decide
  unfold getPosition
  rw [if_pos hopen]
  dsimp only
  rw [if_pos heq, hpos]
  unfold mouseRenderPosition
  dsimp only
  rw [hpx, hpy]
  unfold leftButton mouseRenderLeftButton arrayToString
  dsimp only
  by_cases hb : drv.hdPhantomGetButtons st.deviceID = 1
  · simp [hb]
  · simp [hb]

theorem getPosition_2d_witness :
    (getPosition ieee showDouble
        (driverAt 0 (Double.ofRat 0.03, Double.ofRat (-0.125), Double.ofRat 0.25) 1)
        session2d).map (fun o => (o.ret, o.calls))
      = some (Variant.str "-0.025,-0.1125,0.03",
          [Call.hdPhantomGetPosition 0, Call.SetCursorPos (-179) (-809),
           Call.hdPhantomGetButtons 0, Call.SendInput]) ∧
    (getPosition ieee showDouble
        (driverAt 0 (Double.ofRat 0.5, Double.ofRat 0.0123, Double.ofRat 0.0321) 0)
        session2d).map (fun o => (o.ret, o.calls))
      = some (Variant.str "0.1123,0.1054,0.5",
          [Call.hdPhantomGetPosition 0, Call.SetCursorPos 808 758,
           Call.hdPhantomGetButtons 0]) ∧
    (getPosition ieee showDouble
        (driverAt 0 (Double.ofRat 0, Double.ofRat 0, Double.ofRat (-0.0078125)) 0)
        session2d).map (fun o => (o.ret, o.calls))
      = some (Variant.str "0.1,0.145313,0",
          [Call.hdPhantomGetPosition 0, Call.SetCursorPos 720 1046,
           Call.hdPhantomGetButtons 0]) := by
  have h1 := getPosition_2d ieee showDouble
    (driverAt 0 (Double.ofRat 0.03, Double.ofRat (-0.125), Double.ofRat 0.25) 1) session2d
    (Double.ofRat 0.03) (Double.ofRat (-0.125)) (Double.ofRat 0.25) (-179) (-809)
    (by decide!) (by decide!) rfl (by decide!) (by decide!)
  have h2 := getPosition_2d ieee showDouble
    (driverAt 0 (Double.ofRat 0.5, Double.ofRat 0.0123, Double.ofRat 0.0321) 0) session2d
    (Double.ofRat 0.5) (Double.ofRat 0.0123) (Double.ofRat 0.0321) 808 758
    (by decide!) (by decide!) rfl (by decide!) (by decide!)
  have h3 := getPosition_2d ieee showDouble
    (driverAt 0 (Double.ofRat 0, Double.ofRat 0, Double.ofRat (-0.0078125)) 0) session2d
    (Double.ofRat 0) (Double.ofRat 0) (Double.ofRat (-0.0078125)) 720 1046
    (by decide!) (by decide!) rfl (by decide!) (by decide!)
  refine ⟨?_, ?_, ?_⟩
  · rw [h1]; decide!
  · rw [h2]; decide!
  · rw [h3]; decide!

end JHaptic
